import Mathlib

/-!
# Verification of the emote_pipeline animation compression core

Shallow embedding of the animation data model, frame-rate reducer, palette
builder / transparency classifier, size-constrained search controller
(`src/apng_to_gif_alpha_test.py`) and the resize stage (`src/image_resize.py`),
together with theorems settling the specification's claims about them.

External collaborators (PIL decode/encode, `Image.quantize`, `Image.resize`)
are modelled as abstract function parameters, with their documented interface
contracts stated as explicit hypotheses or `Prop`-valued contract structures.
-/

/-- An RGBA pixel, 8 bits per channel (values 0..255). -/
structure RGBA where
  r : Nat
  g : Nat
  b : Nat
  a : Nat
deriving DecidableEq

/-- An RGB color (the alpha channel discarded). -/
abbrev RGB := Nat × Nat × Nat

/-- A decoded frame: pixel dimensions plus the flat row-major pixel data
(the order PIL's `getdata` exposes). -/
structure Frame where
  size : Nat × Nat
  pixels : List RGBA
deriving DecidableEq

instance : Inhabited Frame := ⟨⟨(0, 0), []⟩⟩

/-- The in-memory animation model of `src/apng_to_gif_alpha_test.py` (lines
9-14) and `src/image_resize.py` (lines 10-15): frames, parallel per-frame
durations in milliseconds, loop count (0 = infinite) and canvas size. -/
structure Animation where
  frames : List Frame
  durations : List Nat
  loop : Nat
  size : Nat × Nat
deriving DecidableEq

/-- The error taxonomy of the pipeline.  `unsupportedFormat`, `emptyAnimation`,
`resolutionTooLow`, `encodingFailure` and `budgetUnreachable` correspond to the
deliberate `raise` sites of the source; `indexError` models a Python
`IndexError` from an out-of-bounds subscript (an incidental crash, not a
deliberate validation); `badColorCount` models the `ValueError` PIL's
`Image.quantize` raises for a requested color count outside 1..256. -/
inductive Err where
  | unsupportedFormat
  | emptyAnimation
  | resolutionTooLow
  | encodingFailure
  | budgetUnreachable
  | indexError
  | badColorCount
deriving DecidableEq

/-- Python's extended slice `l[::k]` for a step `k ≥ 1`: the elements at
positions `0, k, 2k, ...`.  (For `k = 0` Python raises `ValueError`; every
call site uses `k ≥ 1`, and this model treats `k = 0` like `k = 1`.) -/
def takeEvery {α : Type} : Nat → List α → List α
  | _, [] => []
  | k, x :: xs => x :: takeEvery k (xs.drop (k - 1))
termination_by _ l => l.length
decreasing_by
  simp only [List.length_drop, List.length_cons]
  omega

/-- The consecutive groups `l[i:i+k]` for `i in range(0, len(l), k)`, `k ≥ 1`:
chunks of size `k`, the last possibly shorter.  (`k = 0` is treated like
`k = 1`; Python would raise `ValueError` on a zero step.) -/
def chunks {α : Type} : Nat → List α → List (List α)
  | _, [] => []
  | k, x :: xs => (x :: xs.take (k - 1)) :: chunks k (xs.drop (k - 1))
termination_by _ l => l.length
decreasing_by
  simp only [List.length_drop, List.length_cons]
  omega

/-- `reduce_frames` (src/apng_to_gif_alpha_test.py lines 44-47): keep every
`factor`-th frame (`frames[::factor]`) and merge durations by summing each
group of `factor` consecutive original durations
(`[sum(durations[i:i+factor]) for i in range(0, len(durations), factor)]`). -/
def reduce_frames (frames : List Frame) (durations : List Nat) (factor : Nat) :
    List Frame × List Nat :=
  (takeEvery factor frames, (chunks factor durations).map (fun c => c.sum))

/-- The RGB channel data of a frame (`Image.merge("RGB", (r, g, b))` after
`frame.split()`). -/
def rgbOf (f : Frame) : List RGB :=
  f.pixels.map (fun p => (p.r, p.g, p.b))

/-- The alpha channel data of a frame (`a.getdata()` after `frame.split()`). -/
def alphaOf (f : Frame) : List Nat :=
  f.pixels.map (fun p => p.a)

/-- The external color quantizer boundary (PIL `Image.quantize`):
`mediancut pix m` models `rgb.quantize(colors=m, method=MEDIANCUT)` and yields
the paletted pixel data together with the palette it built; `toPalette pix pal`
models `rgb.quantize(palette=palette_img)`, the paletted data of `pix` against
an already-built palette. -/
structure Quantizer where
  mediancut : List RGB → Nat → Except Err (List Nat × List RGB)
  toPalette : List RGB → List RGB → List Nat

/-- The documented interface contract of PIL's `Image.quantize`: a median-cut
quantization to `m` colors succeeds exactly for `1 ≤ m ≤ 256` (outside that
range PIL raises `ValueError: bad number of colors`), returns one palette
index per input pixel, each index below `m`, and a nonempty palette of at most
`m` colors; quantizing against an existing palette returns one index per input
pixel, each below the palette's length. -/
structure QuantizerOK (q : Quantizer) : Prop where
  mediancut_ok : ∀ pix m, (∃ r, q.mediancut pix m = .ok r) ↔ (1 ≤ m ∧ m ≤ 256)
  mediancut_len : ∀ pix m d pal, q.mediancut pix m = .ok (d, pal) → d.length = pix.length
  mediancut_lt : ∀ pix m d pal, q.mediancut pix m = .ok (d, pal) → ∀ i ∈ d, i < m
  mediancut_pal_le : ∀ pix m d pal, q.mediancut pix m = .ok (d, pal) → pal.length ≤ m
  mediancut_pal_pos : ∀ pix m d pal, q.mediancut pix m = .ok (d, pal) → 1 ≤ pal.length
  toPalette_len : ∀ pix pal, (q.toPalette pix pal).length = pix.length
  toPalette_lt : ∀ pix pal, 1 ≤ pal.length → ∀ i ∈ q.toPalette pix pal, i < pal.length

/-- The transparency overwrite loop of `save_as_gif` (src/apng_to_gif_alpha_test.py
lines 82-89): walk the paletted data `pdata` in parallel with the alpha data
`adata` (equal lengths, both flat data of one frame) and overwrite the index of
every pixel whose alpha is strictly below the threshold with the reserved
sentinel index `colors - 1`. -/
def overwriteTransparent (t colors : Nat) (pdata adata : List Nat) : List Nat :=
  List.zipWith (fun p a => if a < t then colors - 1 else p) pdata adata

/-- `save_as_gif` (src/apng_to_gif_alpha_test.py lines 50-104), up to the
external GIF byte serialization: frames are already RGBA in this model (the
mode-conversion loop of lines 53-57 is the identity); the palette is built by
median-cut from the RGB channels of the first frame only with `colors - 1`
requested colors (line 67) — `all_pixels[0]` raises `IndexError` when the
animation has no frames; frame 0 reuses the palette image's own data (lines
75-76) while every later frame is quantized against the same fixed palette
(line 78); finally each frame's transparency overwrite is applied (lines
82-89).  The actual `pal_frames[0].save(...)` call and the resulting file size
are external (modelled at the search controller as the encoder oracle); this
model returns the paletted per-frame index data handed to that encoder. -/
def save_as_gif (q : Quantizer) (anim : Animation) (colors : Nat)
    (alpha_threshold : Nat) : Except Err (List (List Nat)) :=
  match anim.frames with
  | [] => .error .indexError
  | f0 :: rest =>
    match q.mediancut (rgbOf f0) (colors - 1) with
    | .error e => .error e
    | .ok (d0, palette) =>
      .ok (overwriteTransparent alpha_threshold colors d0 (alphaOf f0) ::
        rest.map (fun f =>
          overwriteTransparent alpha_threshold colors
            (q.toPalette (rgbOf f) palette) (alphaOf f)))

/-- The format name PIL reports for the expected animated-raster input. -/
def pngFormat : String := "PNG"

/-- `load_animation` (src/apng_to_gif_alpha_test.py lines 17-41).  PIL decoding
is external: the decoded format name, frames, durations and loop count are
parameters, and the function's own validation and `Animation` construction are
modelled — the format check (lines 20-21), the zero-frames check (lines 30-31,
the `EmptyAnimation` error), and the canvas size taken from the first frame
(line 33). -/
def load_animation (format : String) (frames : List Frame)
    (durations : List Nat) (loop : Nat) : Except Err Animation :=
  if format ≠ "PNG" then .error .unsupportedFormat
  else
    match frames with
    | [] => .error .emptyAnimation
    | f0 :: rest =>
      .ok { frames := f0 :: rest, durations := durations, loop := loop,
            size := f0.size }

/-- The paths the search controller touches: the final output path, and the
per-candidate temporary paths, named deterministically from the candidate's
parameters (`output_path.with_suffix(f".temp{skip_factor}f{colors}c.gif")`,
src/apng_to_gif_alpha_test.py line 116). -/
inductive GPath where
  | output
  | temp (skip : Nat) (colors : Nat)
deriving DecidableEq

/-- The filesystem state visible to the search controller: the set of existing
paths (sizes are irrelevant to the claims), as a duplicate-free list. -/
structure FS where
  files : List GPath
deriving DecidableEq

/-- Creating (or overwriting) a file at `p`: afterwards `p` exists. -/
def FS.create (fs : FS) (p : GPath) : FS :=
  if p ∈ fs.files then fs else ⟨p :: fs.files⟩

/-- `Path.unlink`: remove the file at `p`. -/
def FS.unlink (fs : FS) (p : GPath) : FS :=
  ⟨fs.files.erase p⟩

/-- The outcome of one external `save_as_gif` encode call as the search
controller observes it: the encoded artifact was written and its byte size
returned, or the call raised — after the temporary file had been created
(`errAfterWrite`, e.g. a failure partway through `pal_frames[0].save`) or
before any file existed (`errBeforeWrite`, e.g. the quantizer raising). -/
inductive EncodeResult where
  | ok (size : Nat)
  | errAfterWrite
  | errBeforeWrite

/-- An encoder oracle that always succeeds, returning the size `sz` assigns to
the candidate animation, palette size and alpha threshold. -/
def okOracle (sz : Animation → Nat → Nat → Nat) :
    Animation → Nat → Nat → EncodeResult :=
  fun a c t => .ok (sz a c t)

/-- The candidate animation the loop body of `compress_to_target_size` builds
for a given skip factor (src/apng_to_gif_alpha_test.py lines 118-129): the
reduced frames and durations when `skip_factor > 1`, the input's otherwise,
with the loop count passed through and the canvas size read off the first
processed frame (`processed_frames[0].size`). -/
def candidate (anim : Animation) (skip : Nat) : Animation :=
  let pr := if 1 < skip then reduce_frames anim.frames anim.durations skip
            else (anim.frames, anim.durations)
  { frames := pr.1, durations := pr.2, loop := anim.loop,
    size := pr.1.headI.size }

/-- The palette size of the `i`-th schedule step (0-indexed): starting at 256,
decremented by 32 on every failed attempt with a floor of 64, which closes to
`max 64 (256 - 32 * i)`. -/
def palAt (i : Nat) : Nat := max 64 (256 - 32 * i)

/-- The `(skip_factor, palette_size)` pair of the `i`-th schedule step
(0-indexed): `(1 + i, max 64 (256 - 32 * i))`. -/
def schedAt (i : Nat) : Nat × Nat := (1 + i, palAt i)

/-- The full search schedule of an `n`-frame animation: the `n` candidate
parameter pairs the controller can visit before the grid is exhausted. -/
def sched (n : Nat) : List (Nat × Nat) := (List.range n).map schedAt

/-- The encoded size the success-only oracle `sz` reports for the `i`-th
schedule step's candidate. -/
def candSizeAt (sz : Animation → Nat → Nat → Nat) (anim : Animation)
    (alphaT i : Nat) : Nat :=
  sz (candidate anim (1 + i)) (palAt i) alphaT

/-- The search loop of `compress_to_target_size` (src/apng_to_gif_alpha_test.py
lines 115-142).  State: the current `(skip_factor, colors)` pair, the
filesystem, and (for the theorems) the trace of candidate parameters evaluated
so far.  Per iteration, guarded by `skip_factor <= len(frames) and colors >= 64`:
name the temporary path, build the candidate (reducing frames when
`skip_factor > 1`; `processed_frames[0]` raises `IndexError` on an empty frame
list), encode it via the external `save_as_gif` call `enc` (which creates the
temporary file when it writes), promote the temporary to the output path and
halt if the size meets the budget, otherwise unlink it and advance the state to
`(skip_factor + 1, max 64 (colors - 32))`; on exhaustion fail with
`CompressionBudgetUnreachable`.  An exception from the encode call propagates
immediately — the source has no cleanup handler on that path. -/
def compressLoop (enc : Animation → Nat → Nat → EncodeResult) (anim : Animation)
    (target alphaT : Nat) (skip colors : Nat) (fs : FS)
    (tr : List (Nat × Nat)) : Except Err GPath × FS × List (Nat × Nat) :=
  if _h : skip ≤ anim.frames.length ∧ 64 ≤ colors then
    let tmp := GPath.temp skip colors
    let pr := if 1 < skip then reduce_frames anim.frames anim.durations skip
              else (anim.frames, anim.durations)
    match pr.1 with
    | [] => (.error .indexError, fs, tr)
    | f0 :: rest =>
      let cand : Animation :=
        { frames := f0 :: rest, durations := pr.2, loop := anim.loop,
          size := f0.size }
      match enc cand colors alphaT with
      | .ok size =>
        let fs1 := fs.create tmp
        if size ≤ target then
          (.ok GPath.output, (fs1.unlink tmp).create GPath.output,
            tr ++ [(skip, colors)])
        else
          compressLoop enc anim target alphaT (skip + 1) (max 64 (colors - 32))
            (fs1.unlink tmp) (tr ++ [(skip, colors)])
      | .errAfterWrite => (.error .encodingFailure, fs.create tmp, tr ++ [(skip, colors)])
      | .errBeforeWrite => (.error .encodingFailure, fs, tr ++ [(skip, colors)])
  else
    (.error .budgetUnreachable, fs, tr)
termination_by anim.frames.length + 1 - skip
decreasing_by
  omega

/-- `compress_to_target_size` (src/apng_to_gif_alpha_test.py lines 107-142):
check the minimum-resolution precondition (lines 111-113, `ResolutionTooLow`)
before any other work, then run the search loop from the initial state
`(skip_factor, colors) = (1, 256)`.  Returns the result (the promoted output
path or the error), the final filesystem state and the trace of evaluated
candidate parameters. -/
def compress_to_target_size (enc : Animation → Nat → Nat → EncodeResult)
    (anim : Animation) (target alphaT minRes : Nat) (fs : FS) :
    Except Err GPath × FS × List (Nat × Nat) :=
  if anim.size.1 < minRes ∨ anim.size.2 < minRes then
    (.error .resolutionTooLow, fs, [])
  else
    compressLoop enc anim target alphaT 1 256 fs []

/-- `resize_animation` (src/image_resize.py lines 45-56): resize every frame to
the target size (the external PIL `Image.resize` with LANCZOS resampling is the
parameter `rz`), keep durations and loop count, and set the canvas size to the
target. -/
def resize_animation (rz : Frame → Nat × Nat → Frame) (anim : Animation)
    (target_size : Nat × Nat) : Animation :=
  { frames := anim.frames.map (fun f => rz f target_size),
    durations := anim.durations,
    loop := anim.loop,
    size := target_size }

/-- A concrete quantizer satisfying the `Image.quantize` interface contract:
it validates the requested color count the way PIL does and assigns every
pixel the palette index 0. -/
def zeroQuantizer : Quantizer where
  mediancut := fun pix m =>
    if 1 ≤ m ∧ m ≤ 256 then .ok (pix.map (fun _ => 0), [(0, 0, 0)])
    else .error .badColorCount
  toPalette := fun pix _ => pix.map (fun _ => 0)

/-- A concrete resize collaborator satisfying the `Image.resize` contract. -/
def stampSize (f : Frame) (s : Nat × Nat) : Frame := { f with size := s }

/-- A fully opaque test pixel. -/
def pxOpaque : RGBA := ⟨10, 20, 30, 255⟩

/-- A fully transparent test pixel. -/
def pxClear : RGBA := ⟨1, 2, 3, 0⟩

/-- A 1000×1000 test frame with one opaque and one transparent pixel. -/
def frameW : Frame := ⟨(1000, 1000), [pxOpaque, pxClear]⟩

/-- A two-frame 1000×1000 test animation. -/
def animW : Animation := ⟨[frameW, frameW], [40, 40], 0, (1000, 1000)⟩

/-- A one-frame 800×800 test animation (below the default minimum
resolution). -/
def animSmall : Animation := ⟨[⟨(800, 800), [pxOpaque]⟩], [40], 0, (800, 800)⟩

/-- A one-frame 1000×1000 test animation. -/
def animOne : Animation := ⟨[⟨(1000, 1000), [pxOpaque]⟩], [40], 0, (1000, 1000)⟩

/-- An encoder oracle that always raises after having written the temporary
artifact. -/
def alwaysErrAfter : Animation → Nat → Nat → EncodeResult :=
  fun _ _ _ => .errAfterWrite

lemma takeEvery_length {α : Type} (k : Nat) (hk : 1 ≤ k) :
    ∀ l : List α, (takeEvery k l).length = (l.length + k - 1) / k
  | [] => by
    rw [takeEvery]
    simp only [List.length_nil, Nat.zero_add]
    exact (Nat.div_eq_of_lt (by omega)).symm
  | x :: xs => by
    rw [takeEvery]
    have ih := takeEvery_length k hk (xs.drop (k - 1))
    simp only [List.length_cons, List.length_drop] at ih ⊢
    rw [ih]
    rcases Nat.lt_or_ge xs.length (k - 1) with hm | hm
    · have h1 : xs.length - (k - 1) = 0 := by omega
      rw [h1]
      have h2 : (0 + k - 1) / k = 0 := Nat.div_eq_of_lt (by omega)
      have h3 : (xs.length + 1 + k - 1) / k = 1 :=
        Nat.div_eq_of_lt_le (by omega) (by omega)
      omega
    · have h1 : xs.length - (k - 1) + k - 1 = xs.length := by omega
      have h2 : xs.length + 1 + k - 1 = xs.length + k := by omega
      rw [h1, h2, Nat.add_div_right _ (by omega)]
termination_by l => l.length
decreasing_by simp only [List.length_drop, List.length_cons]; omega

lemma takeEvery_get? {α : Type} (k : Nat) (hk : 1 ≤ k) :
    ∀ (l : List α) (i : Nat), (takeEvery k l).get? i = l.get? (i * k)
  | [], i => by rw [takeEvery]; simp
  | _ :: _, 0 => by rw [takeEvery]; simp
  | x :: xs, i + 1 => by
    rw [takeEvery]
    simp only [List.get?_cons_succ]
    rw [takeEvery_get? k hk (xs.drop (k - 1)) i, List.get?_drop]
    have h1 : (i + 1) * k = (k - 1 + i * k) + 1 := by
      have h2 : (i + 1) * k = i * k + k := Nat.succ_mul i k
      omega
    rw [h1, List.get?_cons_succ]
termination_by l _ => l.length
decreasing_by simp only [List.length_drop, List.length_cons]; omega

lemma chunks_length {α : Type} (k : Nat) (hk : 1 ≤ k) :
    ∀ l : List α, (chunks k l).length = (l.length + k - 1) / k
  | [] => by
    rw [chunks]
    simp only [List.length_nil, Nat.zero_add]
    exact (Nat.div_eq_of_lt (by omega)).symm
  | x :: xs => by
    rw [chunks]
    have ih := chunks_length k hk (xs.drop (k - 1))
    simp only [List.length_cons, List.length_drop] at ih ⊢
    rw [ih]
    rcases Nat.lt_or_ge xs.length (k - 1) with hm | hm
    · have h1 : xs.length - (k - 1) = 0 := by omega
      rw [h1]
      have h2 : (0 + k - 1) / k = 0 := Nat.div_eq_of_lt (by omega)
      have h3 : (xs.length + 1 + k - 1) / k = 1 :=
        Nat.div_eq_of_lt_le (by omega) (by omega)
      omega
    · have h1 : xs.length - (k - 1) + k - 1 = xs.length := by omega
      have h2 : xs.length + 1 + k - 1 = xs.length + k := by omega
      rw [h1, h2, Nat.add_div_right _ (by omega)]
termination_by l => l.length
decreasing_by simp only [List.length_drop, List.length_cons]; omega

lemma chunks_sum (k : Nat) :
    ∀ d : List Nat, ((chunks k d).map List.sum).sum = d.sum
  | [] => by rw [chunks]; simp
  | x :: xs => by
    rw [chunks]
    have ih := chunks_sum k (xs.drop (k - 1))
    simp only [List.map_cons, List.sum_cons, ih]
    have h1 := List.sum_take_add_sum_drop xs (k - 1)
    omega
termination_by d => d.length
decreasing_by simp only [List.length_drop, List.length_cons]; omega

lemma get?_zipWith {α β γ : Type} (f : α → β → γ) :
    ∀ (as : List α) (bs : List β) (i : Nat) (a : α) (b : β),
      as.get? i = some a → bs.get? i = some b →
      (List.zipWith f as bs).get? i = some (f a b)
  | [], _, i, a, _ => by intro ha _; simp at ha
  | _ :: _, [], i, _, b => by intro _ hb; simp at hb
  | a' :: as, b' :: bs, 0, a, b => by
    intro ha hb
    simp only [List.get?_cons_zero, Option.some.injEq] at ha hb
    subst ha; subst hb
    rfl
  | a' :: as, b' :: bs, i + 1, a, b => by
    intro ha hb
    simp only [List.get?_cons_succ] at ha hb
    simpa [List.zipWith] using get?_zipWith f as bs i a b ha hb

lemma zeroQuantizer_ok : QuantizerOK zeroQuantizer := by
  have hok : ∀ (pix : List RGB) (m : Nat) (d : List Nat) (pal : List RGB),
      zeroQuantizer.mediancut pix m = .ok (d, pal) →
      (1 ≤ m ∧ m ≤ 256) ∧ d = pix.map (fun _ => 0) ∧ pal = [(0, 0, 0)] := by
    intro pix m d pal h
    by_cases hc : 1 ≤ m ∧ m ≤ 256
    · simp only [zeroQuantizer, if_pos hc, Except.ok.injEq, Prod.mk.injEq] at h
      exact ⟨hc, h.1.symm, h.2.symm⟩
    · simp [zeroQuantizer, if_neg hc] at h
  constructor
  · intro pix m
    constructor
    · rintro ⟨⟨d, pal⟩, hr⟩
      exact (hok pix m d pal hr).1
    · intro h
      refine ⟨(pix.map (fun _ => 0), [(0, 0, 0)]), ?_⟩
      simp only [zeroQuantizer, if_pos h]
  · intro pix m d pal h
    rw [(hok pix m d pal h).2.1, List.length_map]
  · intro pix m d pal h i hi
    rw [(hok pix m d pal h).2.1] at hi
    obtain ⟨-, -, rfl⟩ := List.mem_map.mp hi
    exact (hok pix m d pal h).1.1
  · intro pix m d pal h
    rw [(hok pix m d pal h).2.2]
    exact (hok pix m d pal h).1.1
  · intro pix m d pal h
    rw [(hok pix m d pal h).2.2]
    exact Nat.le_refl 1
  · intro pix pal
    exact List.length_map _ _
  · intro pix pal hpal i hi
    obtain ⟨-, -, rfl⟩ := List.mem_map.mp hi
    omega

lemma overwrite_spec (t N : Nat) (pdata adata : List Nat) (j pj aj : Nat)
    (hp : pdata.get? j = some pj) (ha : adata.get? j = some aj)
    (hlt : pj < N - 1) :
    (aj < t → (overwriteTransparent t N pdata adata).get? j = some (N - 1)) ∧
    (t ≤ aj → ∃ idx, (overwriteTransparent t N pdata adata).get? j = some idx ∧
      idx ≠ N - 1) := by
  have h := get?_zipWith (fun p a => if a < t then N - 1 else p)
    pdata adata j pj aj hp ha
  constructor
  · intro hat
    rw [overwriteTransparent, h]
    simp [if_pos hat]
  · intro hat
    refine ⟨pj, ?_, by omega⟩
    rw [overwriteTransparent, h]
    simp [if_neg (by omega : ¬ aj < t)]

lemma alphaOf_get? (f : Frame) (j : Nat) (px : RGBA)
    (hpx : f.pixels.get? j = some px) : (alphaOf f).get? j = some px.a := by
  rw [alphaOf, List.get?_map, hpx]
  rfl

/-- C3: for every animation and every skip factor `k ≥ 1`, the frame-rate
reducer conserves total playback time exactly: the reduced duration sequence
sums to the original duration sequence's sum, with no rounding, since each
output duration is the exact sum of the original durations it absorbs. -/
theorem reduce_frames_duration_conservation (frames : List Frame)
    (durations : List Nat) (k : Nat) (hk : 1 ≤ k) :
    ((reduce_frames frames durations k).2).sum = durations.sum := by
  have h := chunks_sum k durations
  simpa [reduce_frames] using h

theorem reduce_frames_duration_conservation_witness :
    ((reduce_frames animW.frames animW.durations 2).2).sum =
      animW.durations.sum :=
  reduce_frames_duration_conservation animW.frames animW.durations 2
    (by decide)

/-- C6: for every animation with `n` frames and skip factor `k ≥ 1`, the
reducer outputs exactly `⌈n / k⌉ = (n + k - 1) / k` frames, namely the frames
at 0-indexed positions `0, k, 2k, ...`, and the output duration sequence has
that same length. -/
theorem reduce_frames_count_law (frames : List Frame) (durations : List Nat)
    (k : Nat) (hk : 1 ≤ k) (hlen : durations.length = frames.length) :
    (reduce_frames frames durations k).1.length = (frames.length + k - 1) / k ∧
    (∀ i, ((reduce_frames frames durations k).1).get? i = frames.get? (i * k)) ∧
    (reduce_frames frames durations k).2.length = (frames.length + k - 1) / k := by
  refine ⟨takeEvery_length k hk frames, fun i => takeEvery_get? k hk frames i, ?_⟩
  show ((chunks k durations).map (fun c => c.sum)).length = _
  rw [List.length_map, chunks_length k hk durations, hlen]

theorem reduce_frames_count_law_witness :
    (reduce_frames animW.frames animW.durations 2).1.length =
      (animW.frames.length + 2 - 1) / 2 ∧
    (∀ i, ((reduce_frames animW.frames animW.durations 2).1).get? i =
      animW.frames.get? (i * 2)) ∧
    (reduce_frames animW.frames animW.durations 2).2.length =
      (animW.frames.length + 2 - 1) / 2 :=
  reduce_frames_count_law animW.frames animW.durations 2 (by decide) rfl

/-- C4: for every frame, palette size `N` and threshold `t` with
`0 ≤ t ≤ 255`, in a successfully built paletted animation every pixel whose
source alpha is strictly below `t` has output palette index exactly `N - 1`
(the transparency sentinel) regardless of its quantized color, and every pixel
whose source alpha is at or above `t` has an output index different from
`N - 1` (its quantized index, which lies below `N - 1`). -/
theorem save_as_gif_transparency (q : Quantizer) (hq : QuantizerOK q)
    (anim : Animation) (N t : Nat) (ht : t ≤ 255) (pal : List (List Nat))
    (hok : save_as_gif q anim N t = .ok pal)
    (k : Nat) (fk : Frame) (hfk : anim.frames.get? k = some fk)
    (pk : List Nat) (hpk : pal.get? k = some pk)
    (j : Nat) (px : RGBA) (hpx : fk.pixels.get? j = some px) :
    (px.a < t → pk.get? j = some (N - 1)) ∧
    (t ≤ px.a → ∃ idx, pk.get? j = some idx ∧ idx ≠ N - 1) := by
  cases hfr : anim.frames with
  | nil =>
    rw [hfr] at hfk
    simp at hfk
  | cons f0 rest =>
    simp only [save_as_gif, hfr] at hok
    cases hmc : q.mediancut (rgbOf f0) (N - 1) with
    | error e => rw [hmc] at hok; simp at hok
    | ok r =>
      obtain ⟨d0, palette⟩ := r
      rw [hmc] at hok
      simp only [Except.ok.injEq] at hok
      subst hok
      have hm1 : 1 ≤ N - 1 ∧ N - 1 ≤ 256 :=
        (hq.mediancut_ok (rgbOf f0) (N - 1)).mp ⟨(d0, palette), hmc⟩
      have hpal_pos := hq.mediancut_pal_pos _ _ _ _ hmc
      have hpal_le := hq.mediancut_pal_le _ _ _ _ hmc
      rw [hfr] at hfk
      cases k with
      | zero =>
        simp only [List.get?_cons_zero, Option.some.injEq] at hfk hpk
        subst hfk
        subst hpk
        have hj : j < f0.pixels.length := (List.get?_eq_some.mp hpx).1
        have hlen0 : d0.length = f0.pixels.length := by
          rw [hq.mediancut_len _ _ _ _ hmc, rgbOf, List.length_map]
        have hj' : j < d0.length := by omega
        have hp := List.get?_eq_get hj'
        exact overwrite_spec t N d0 (alphaOf f0) j _ px.a hp
          (alphaOf_get? f0 j px hpx)
          (hq.mediancut_lt _ _ _ _ hmc _ (List.get?_mem hp))
      | succ k' =>
        simp only [List.get?_cons_succ] at hfk hpk
        rw [List.get?_map, hfk] at hpk
        simp only [Option.map_some', Option.some.injEq] at hpk
        subst hpk
        have hj : j < fk.pixels.length := (List.get?_eq_some.mp hpx).1
        have hlen1 : (q.toPalette (rgbOf fk) palette).length =
            fk.pixels.length := by
          rw [hq.toPalette_len, rgbOf, List.length_map]
        have hj' : j < (q.toPalette (rgbOf fk) palette).length := by omega
        have hp := List.get?_eq_get hj'
        have hidx : (q.toPalette (rgbOf fk) palette).get ⟨j, hj'⟩ < N - 1 := by
          have h1 := hq.toPalette_lt (rgbOf fk) palette hpal_pos _
            (List.get?_mem hp)
          omega
        exact overwrite_spec t N (q.toPalette (rgbOf fk) palette) (alphaOf fk)
          j _ px.a hp (alphaOf_get? fk j px hpx) hidx

theorem save_as_gif_transparency_witness :
    (pxClear.a < 10 → ([0, 255] : List Nat).get? 1 = some (256 - 1)) ∧
    (10 ≤ pxClear.a →
      ∃ idx, ([0, 255] : List Nat).get? 1 = some idx ∧ idx ≠ 256 - 1) :=
  save_as_gif_transparency zeroQuantizer zeroQuantizer_ok animW 256 10
    (by decide) [[0, 255], [0, 255]] rfl 0 frameW rfl [0, 255] rfl 1 pxClear
    rfl

/-- C5 (amended): for every quantizer conforming to the `Image.quantize`
interface and every palette size `N` with `2 ≤ N ≤ 256` (not only the 64..256
range used by the search schedule, but not `N = 1`, whose requested reduced
palette of `N - 1 = 0` colors the quantizer rejects), the palette builder
succeeds on every nonempty candidate animation, building a single shared
palette of at most `N - 1` colors (and at least one) by median-cut from the
RGB channels of the first frame only, and quantizing every subsequent frame
against that same fixed palette. -/
theorem save_as_gif_palette_source (q : Quantizer) (hq : QuantizerOK q)
    (anim : Animation) (N t : Nat) (hN : 2 ≤ N) (hN' : N ≤ 256)
    (f0 : Frame) (rest : List Frame) (hfr : anim.frames = f0 :: rest) :
    ∃ d0 palette, q.mediancut (rgbOf f0) (N - 1) = .ok (d0, palette) ∧
      1 ≤ palette.length ∧ palette.length ≤ N - 1 ∧
      save_as_gif q anim N t =
        .ok (overwriteTransparent t N d0 (alphaOf f0) ::
          rest.map (fun f =>
            overwriteTransparent t N (q.toPalette (rgbOf f) palette)
              (alphaOf f))) := by
  obtain ⟨⟨d0, palette⟩, hmc⟩ :=
    (hq.mediancut_ok (rgbOf f0) (N - 1)).mpr ⟨by omega, by omega⟩
  refine ⟨d0, palette, hmc, hq.mediancut_pal_pos _ _ _ _ hmc,
    hq.mediancut_pal_le _ _ _ _ hmc, ?_⟩
  simp only [save_as_gif, hfr, hmc]

theorem save_as_gif_palette_source_witness :
    ∃ d0 palette,
      zeroQuantizer.mediancut (rgbOf frameW) (256 - 1) = .ok (d0, palette) ∧
      1 ≤ palette.length ∧ palette.length ≤ 256 - 1 ∧
      save_as_gif zeroQuantizer animW 256 10 =
        .ok (overwriteTransparent 10 256 d0 (alphaOf frameW) ::
          [frameW].map (fun f =>
            overwriteTransparent 10 256 (zeroQuantizer.toPalette (rgbOf f)
              palette) (alphaOf f))) :=
  save_as_gif_palette_source zeroQuantizer zeroQuantizer_ok animW 256 10
    (by decide) (by decide) frameW [frameW] rfl

/-- C5 counterexample: the palette builder does not accept every `N` with
`1 ≤ N ≤ 256`.  For `N = 1` it requests a reduced palette of `N - 1 = 0`
colors (src/apng_to_gif_alpha_test.py line 67), which the `Image.quantize`
interface rejects (`ValueError: bad number of colors`), exhibited here with a
concrete quantizer conforming to that interface. -/
theorem save_as_gif_palette_minimum_counterexample :
    QuantizerOK zeroQuantizer ∧
    save_as_gif zeroQuantizer animOne 1 10 = .error .badColorCount :=
  ⟨zeroQuantizer_ok, rfl⟩

/-- C8 counterexample: on a zero-frame candidate the palette builder does not
fail with a deliberate `EmptyAnimation` validation — it crashes through the
incidental out-of-bounds subscript `all_pixels[0]`
(src/apng_to_gif_alpha_test.py line 67), a different failure. -/
theorem save_as_gif_empty_counterexample :
    save_as_gif zeroQuantizer ⟨[], [], 0, (0, 0)⟩ 256 10 =
      .error .indexError ∧
    Err.indexError ≠ Err.emptyAnimation :=
  ⟨rfl, by decide⟩

/-- C8 (amended): the palette builder performs no defensive zero-frames
validation of its own: for every quantizer and parameters, a zero-frame
candidate fails via the out-of-bounds first-frame subscript (an incidental
`IndexError`); the deliberate zero-frames validation (the `EmptyAnimation`
error, "Image contained no frames") is performed by `load_animation`
(src/apng_to_gif_alpha_test.py lines 30-31) before an `Animation` is ever
constructed. -/
theorem save_as_gif_empty_is_index_error (q : Quantizer) (N t : Nat)
    (d : List Nat) (lp : Nat) (cs : Nat × Nat) :
    save_as_gif q ⟨[], d, lp, cs⟩ N t = .error .indexError ∧
    load_animation pngFormat [] d lp = .error .emptyAnimation :=
  ⟨rfl, rfl⟩

lemma palAt_ge (i : Nat) : 64 ≤ palAt i := Nat.le_max_left _ _

lemma palAt_succ (i : Nat) : max 64 (palAt i - 32) = palAt (i + 1) := by
  simp only [palAt]
  omega

lemma prFrames_cons (anim : Animation) (skip : Nat) (h1 : 1 ≤ skip)
    (h2 : skip ≤ anim.frames.length) :
    ∃ f0 rest,
      (if 1 < skip then reduce_frames anim.frames anim.durations skip
       else (anim.frames, anim.durations)).1 = f0 :: rest := by
  cases hfr : anim.frames with
  | nil => rw [hfr] at h2; simp at h2; omega
  | cons x xs =>
    by_cases hs : 1 < skip
    · rw [if_pos hs]
      show ∃ f0 rest, takeEvery skip (x :: xs) = f0 :: rest
      rw [takeEvery]
      exact ⟨x, _, rfl⟩
    · rw [if_neg hs]
      exact ⟨x, xs, rfl⟩

lemma candidate_eq_of_cons (anim : Animation) (skip : Nat) (f0 : Frame)
    (rest : List Frame)
    (hpf : (if 1 < skip then reduce_frames anim.frames anim.durations skip
            else (anim.frames, anim.durations)).1 = f0 :: rest) :
    candidate anim skip =
      { frames := f0 :: rest,
        durations := (if 1 < skip then
          reduce_frames anim.frames anim.durations skip
          else (anim.frames, anim.durations)).2,
        loop := anim.loop, size := f0.size } := by
  simp only [candidate, hpf, List.headI]

lemma FS.create_unlink (fs : FS) (p : GPath) (h : p ∉ fs.files) :
    (fs.create p).unlink p = fs := by
  simp only [FS.create, if_neg h, FS.unlink, List.erase_cons_head]

lemma FS.mem_create (fs : FS) (p q : GPath) (h : p ∈ (fs.create q).files) :
    p = q ∨ p ∈ fs.files := by
  simp only [FS.create] at h
  by_cases hq : q ∈ fs.files
  · rw [if_pos hq] at h
    exact Or.inr h
  · rw [if_neg hq] at h
    simpa using h

lemma range_map_shift {α : Type} (g : Nat → α) (i k : Nat) :
    g i :: (List.range k).map (fun j => g (i + 1 + j)) =
      (List.range (k + 1)).map (fun j => g (i + j)) := by
  rw [List.range_succ_eq_map, List.map_cons, List.map_map]
  have h1 : (fun j => g (i + j)) ∘ Nat.succ = fun j => g (i + 1 + j) := by
    funext j
    have h2 : i + (j + 1) = i + 1 + j := by omega
    simp [Function.comp, Nat.succ_eq_add_one, h2]
  rw [h1]
  simp

lemma compressLoop_step (enc : Animation → Nat → Nat → EncodeResult)
    (anim : Animation) (target alphaT skip colors : Nat) (fs : FS)
    (tr : List (Nat × Nat)) (h1 : skip ≤ anim.frames.length)
    (h2 : 64 ≤ colors) (f0 : Frame) (rest : List Frame)
    (hpf : (if 1 < skip then reduce_frames anim.frames anim.durations skip
            else (anim.frames, anim.durations)).1 = f0 :: rest) :
    compressLoop enc anim target alphaT skip colors fs tr =
      match enc { frames := f0 :: rest,
                  durations := (if 1 < skip then
                    reduce_frames anim.frames anim.durations skip
                    else (anim.frames, anim.durations)).2,
                  loop := anim.loop, size := f0.size } colors alphaT with
      | .ok size =>
        if size ≤ target then
          (.ok GPath.output,
            ((fs.create (GPath.temp skip colors)).unlink
              (GPath.temp skip colors)).create GPath.output,
            tr ++ [(skip, colors)])
        else
          compressLoop enc anim target alphaT (skip + 1)
            (max 64 (colors - 32))
            ((fs.create (GPath.temp skip colors)).unlink
              (GPath.temp skip colors))
            (tr ++ [(skip, colors)])
      | .errAfterWrite => (.error .encodingFailure,
          fs.create (GPath.temp skip colors), tr ++ [(skip, colors)])
      | .errBeforeWrite => (.error .encodingFailure, fs,
          tr ++ [(skip, colors)]) := by
  rw [compressLoop, dif_pos ⟨h1, h2⟩]
  simp only [hpf]

lemma compressLoop_all_fail (sz : Animation → Nat → Nat → Nat)
    (anim : Animation) (target alphaT : Nat) :
    ∀ m i (fs : FS) (tr : List (Nat × Nat)), anim.frames.length - i = m →
    (∀ s c, GPath.temp s c ∉ fs.files) →
    (∀ j, i ≤ j → j < anim.frames.length →
      target < candSizeAt sz anim alphaT j) →
    compressLoop (okOracle sz) anim target alphaT (1 + i) (palAt i) fs tr =
      (.error .budgetUnreachable, fs,
        tr ++ (List.range (anim.frames.length - i)).map
          (fun j => schedAt (i + j))) := by
  intro m
  induction m with
  | zero =>
    intro i fs tr hm hfs hfail
    rw [compressLoop, dif_neg (by omega)]
    simp [hm]
  | succ m ih =>
    intro i fs tr hm hfs hfail
    have h1 : 1 + i ≤ anim.frames.length := by omega
    obtain ⟨f0, rest, hpf⟩ := prFrames_cons anim (1 + i) (by omega) h1
    rw [compressLoop_step (okOracle sz) anim target alphaT (1 + i) (palAt i)
      fs tr h1 (palAt_ge i) f0 rest hpf]
    have hcand := candidate_eq_of_cons anim (1 + i) f0 rest hpf
    simp only [okOracle, ← hcand]
    have hgt : ¬ sz (candidate anim (1 + i)) (palAt i) alphaT ≤ target := by
      have := hfail i (Nat.le_refl i) (by omega)
      simp only [candSizeAt] at this
      omega
    rw [if_neg hgt]
    have heq1 : 1 + i + 1 = 1 + (i + 1) := by omega
    rw [FS.create_unlink fs _ (hfs _ _), heq1, palAt_succ]
    rw [ih (i + 1) fs (tr ++ [(1 + i, palAt i)]) (by omega) hfs
      (fun j hj hjn => hfail j (by omega) hjn)]
    have hni : anim.frames.length - i = (anim.frames.length - (i + 1)) + 1 := by
      omega
    simp only [Prod.mk.injEq]
    refine ⟨trivial, trivial, ?_⟩
    rw [List.append_assoc, List.singleton_append, hni]
    exact congrArg (tr ++ ·) (range_map_shift schedAt i _)

lemma compressLoop_hit (sz : Animation → Nat → Nat → Nat) (anim : Animation)
    (target alphaT : Nat) :
    ∀ j i (fs : FS) (tr : List (Nat × Nat)),
    (∀ s c, GPath.temp s c ∉ fs.files) →
    i + j < anim.frames.length →
    candSizeAt sz anim alphaT (i + j) ≤ target →
    (∀ j', j' < j → target < candSizeAt sz anim alphaT (i + j')) →
    compressLoop (okOracle sz) anim target alphaT (1 + i) (palAt i) fs tr =
      (.ok GPath.output, fs.create GPath.output,
        tr ++ (List.range (j + 1)).map (fun j' => schedAt (i + j'))) := by
  intro j
  induction j with
  | zero =>
    intro i fs tr hfs hin hhit hmin
    have h1 : 1 + i ≤ anim.frames.length := by omega
    obtain ⟨f0, rest, hpf⟩ := prFrames_cons anim (1 + i) (by omega) h1
    rw [compressLoop_step (okOracle sz) anim target alphaT (1 + i) (palAt i)
      fs tr h1 (palAt_ge i) f0 rest hpf]
    have hcand := candidate_eq_of_cons anim (1 + i) f0 rest hpf
    simp only [okOracle, ← hcand]
    have hle : sz (candidate anim (1 + i)) (palAt i) alphaT ≤ target := by
      have := hhit
      simp only [Nat.add_zero, candSizeAt] at this
      exact this
    rw [if_pos hle, FS.create_unlink fs _ (hfs _ _)]
    simp only [Prod.mk.injEq]
    refine ⟨trivial, trivial, ?_⟩
    simp [schedAt, List.range_succ]
  | succ j ih =>
    intro i fs tr hfs hin hhit hmin
    have h1 : 1 + i ≤ anim.frames.length := by omega
    obtain ⟨f0, rest, hpf⟩ := prFrames_cons anim (1 + i) (by omega) h1
    rw [compressLoop_step (okOracle sz) anim target alphaT (1 + i) (palAt i)
      fs tr h1 (palAt_ge i) f0 rest hpf]
    have hcand := candidate_eq_of_cons anim (1 + i) f0 rest hpf
    simp only [okOracle, ← hcand]
    have hgt : ¬ sz (candidate anim (1 + i)) (palAt i) alphaT ≤ target := by
      have := hmin 0 (by omega)
      simp only [Nat.add_zero, candSizeAt] at this
      omega
    rw [if_neg hgt]
    have heq1 : 1 + i + 1 = 1 + (i + 1) := by omega
    rw [FS.create_unlink fs _ (hfs _ _), heq1, palAt_succ]
    rw [ih (i + 1) fs (tr ++ [(1 + i, palAt i)]) hfs (by omega)
      (by have := hhit; simp only [candSizeAt] at this ⊢
          have heq2 : i + 1 + j = i + (j + 1) := by omega
          rw [heq2]; exact this)
      (fun j' hj' => by
        have := hmin (j' + 1) (by omega)
        simp only [candSizeAt] at this ⊢
        have heq3 : i + 1 + j' = i + (j' + 1) := by omega
        rw [heq3]; exact this)]
    simp only [Prod.mk.injEq]
    refine ⟨trivial, trivial, ?_⟩
    rw [List.append_assoc, List.singleton_append]
    exact congrArg (tr ++ ·) (range_map_shift schedAt i (j + 1))

lemma compress_all_fail_eq (sz : Animation → Nat → Nat → Nat)
    (anim : Animation) (target alphaT minRes : Nat) (fs : FS)
    (hres : ¬(anim.size.1 < minRes ∨ anim.size.2 < minRes))
    (hfs : ∀ s c, GPath.temp s c ∉ fs.files)
    (hfail : ∀ i, i < anim.frames.length →
      target < candSizeAt sz anim alphaT i) :
    compress_to_target_size (okOracle sz) anim target alphaT minRes fs =
      (.error .budgetUnreachable, fs, sched anim.frames.length) := by
  rw [compress_to_target_size, if_neg hres]
  have h := compressLoop_all_fail sz anim target alphaT
    anim.frames.length 0 fs [] (by omega) hfs (fun j _ hj => hfail j hj)
  simp only [Nat.zero_add, Nat.sub_zero, List.nil_append] at h
  rw [show (1 : Nat) = 1 + 0 from rfl, show (256 : Nat) = palAt 0 from rfl, h]
  rfl

lemma compress_hit_eq (sz : Animation → Nat → Nat → Nat) (anim : Animation)
    (target alphaT minRes : Nat) (fs : FS)
    (hres : ¬(anim.size.1 < minRes ∨ anim.size.2 < minRes))
    (hfs : ∀ s c, GPath.temp s c ∉ fs.files)
    (i : Nat) (hi : i < anim.frames.length)
    (hhit : candSizeAt sz anim alphaT i ≤ target)
    (hmin : ∀ j, j < i → target < candSizeAt sz anim alphaT j) :
    compress_to_target_size (okOracle sz) anim target alphaT minRes fs =
      (.ok GPath.output, fs.create GPath.output,
        (sched anim.frames.length).take (i + 1)) := by
  rw [compress_to_target_size, if_neg hres]
  have h := compressLoop_hit sz anim target alphaT i 0 fs [] hfs
    (by omega) (by simpa using hhit) (fun j' hj' => by
      have := hmin j' hj'
      simpa using this)
  simp only [Nat.zero_add, List.nil_append] at h
  rw [show (1 : Nat) = 1 + 0 from rfl, show (256 : Nat) = palAt 0 from rfl, h]
  have hmin2 : min (i + 1) anim.frames.length = i + 1 := by omega
  rw [sched, ← List.map_take, List.take_range, hmin2]

lemma find_min_gt (sz : Animation → Nat → Nat → Nat) (anim : Animation)
    (target alphaT : Nat)
    (hx : ∃ i, i < anim.frames.length ∧ candSizeAt sz anim alphaT i ≤ target) :
    ∀ j, j < Nat.find hx → target < candSizeAt sz anim alphaT j := by
  intro j hj
  have h2 := Nat.find_min hx hj
  push_neg at h2
  have hi0 := (Nat.find_spec hx).1
  exact h2 (by omega)

/-- C7: if either canvas dimension of the input animation is strictly below
`min_resolution`, compression fails with `ResolutionTooLow` before evaluating
any candidate — for every encoder oracle, the filesystem is untouched (no
temporary artifact created) and the trace of evaluated candidates is empty
(no frame reduction, palette construction or encoding was performed). -/
theorem compress_resolution_too_low (enc : Animation → Nat → Nat → EncodeResult)
    (anim : Animation) (target alphaT minRes : Nat) (fs : FS)
    (h : anim.size.1 < minRes ∨ anim.size.2 < minRes) :
    compress_to_target_size enc anim target alphaT minRes fs =
      (.error .resolutionTooLow, fs, []) := by
  rw [compress_to_target_size, if_pos h]

theorem compress_resolution_too_low_witness :
    compress_to_target_size (okOracle (fun _ _ _ => 0)) animSmall 100 10 1000
      ⟨[]⟩ = (.error .resolutionTooLow, ⟨[]⟩, []) :=
  compress_resolution_too_low (okOracle (fun _ _ _ => 0)) animSmall 100 10
    1000 ⟨[]⟩ (Or.inl (by decide))

/-- C2: the search starts at `(skip_factor, palette_size) = (1, 256)` and on
every failed attempt simultaneously increments the skip factor by 1 and
decrements the palette size by 32 clamped at a floor of 64; the loop runs
while `skip_factor ≤ frame_count` and `palette_size ≥ 64` (every evaluated
pair satisfies both bounds), the candidate evaluated after `i` failed attempts
has parameters `(1 + i, max 64 (256 - 32 * i))`, and when every candidate
exceeds the budget the search fails with `CompressionBudgetUnreachable` after
exactly `frame_count` schedule steps. -/
theorem compress_schedule_shape (sz : Animation → Nat → Nat → Nat)
    (anim : Animation) (target alphaT minRes : Nat) (fs : FS)
    (hres : ¬(anim.size.1 < minRes ∨ anim.size.2 < minRes))
    (hfs : ∀ s c, GPath.temp s c ∉ fs.files)
    (hfail : ∀ i, i < anim.frames.length →
      target < candSizeAt sz anim alphaT i) :
    (compress_to_target_size (okOracle sz) anim target alphaT minRes fs).1 =
      .error .budgetUnreachable ∧
    (compress_to_target_size (okOracle sz) anim target alphaT minRes
      fs).2.2.length = anim.frames.length ∧
    (∀ i, i < anim.frames.length →
      (compress_to_target_size (okOracle sz) anim target alphaT minRes
        fs).2.2.get? i = some (1 + i, max 64 (256 - 32 * i))) ∧
    (∀ e ∈ (compress_to_target_size (okOracle sz) anim target alphaT minRes
      fs).2.2, e.1 ≤ anim.frames.length ∧ 64 ≤ e.2) := by
  have key := compress_all_fail_eq sz anim target alphaT minRes fs hres hfs
    hfail
  simp only [key]
  refine ⟨trivial, by simp [sched], ?_, ?_⟩
  · intro i hi
    simp only [sched, List.get?_map, List.get?_range hi]
    rfl
  · intro e he
    simp only [sched, List.mem_map, List.mem_range] at he
    obtain ⟨i, hi, rfl⟩ := he
    constructor
    · show 1 + i ≤ anim.frames.length
      omega
    · exact palAt_ge i

theorem compress_schedule_shape_witness :
    (compress_to_target_size (okOracle (fun _ _ _ => 1000)) animW 100 10 1000
      ⟨[]⟩).1 = .error .budgetUnreachable ∧
    (compress_to_target_size (okOracle (fun _ _ _ => 1000)) animW 100 10 1000
      ⟨[]⟩).2.2.length = animW.frames.length ∧
    (∀ i, i < animW.frames.length →
      (compress_to_target_size (okOracle (fun _ _ _ => 1000)) animW 100 10
        1000 ⟨[]⟩).2.2.get? i = some (1 + i, max 64 (256 - 32 * i))) ∧
    (∀ e ∈ (compress_to_target_size (okOracle (fun _ _ _ => 1000)) animW 100
      10 1000 ⟨[]⟩).2.2, e.1 ≤ animW.frames.length ∧ 64 ≤ e.2) :=
  compress_schedule_shape (fun _ _ _ => 1000) animW 100 10 1000 ⟨[]⟩
    (by decide) (fun s c => List.not_mem_nil _)
    (fun i _ => by show (100 : Nat) < 1000; decide)

/-- C1: with the resolution precondition met and no pre-existing temporaries,
the size-constrained search always terminates, within `frame_count` candidate
evaluations; the first candidate in schedule order whose encoded size meets
the budget is promoted to the output path and the loop halts immediately (the
trace is exactly the schedule prefix up to and including that candidate); a
successful return is always the output path and implies the accepted schedule
step's size met the budget (never an over-budget candidate); and if no
candidate in the schedule meets the budget the search fails with
`CompressionBudgetUnreachable`. -/
theorem compress_first_fit (sz : Animation → Nat → Nat → Nat)
    (anim : Animation) (target alphaT minRes : Nat) (fs : FS)
    (hres : ¬(anim.size.1 < minRes ∨ anim.size.2 < minRes))
    (hfs : ∀ s c, GPath.temp s c ∉ fs.files) :
    ((compress_to_target_size (okOracle sz) anim target alphaT minRes
      fs).2.2.length ≤ anim.frames.length) ∧
    ((∀ i, i < anim.frames.length → target < candSizeAt sz anim alphaT i) →
      (compress_to_target_size (okOracle sz) anim target alphaT minRes fs).1 =
        .error .budgetUnreachable) ∧
    (∀ i, i < anim.frames.length → candSizeAt sz anim alphaT i ≤ target →
      (∀ j, j < i → target < candSizeAt sz anim alphaT j) →
      compress_to_target_size (okOracle sz) anim target alphaT minRes fs =
        (.ok GPath.output, fs.create GPath.output,
          (sched anim.frames.length).take (i + 1))) ∧
    (∀ p, (compress_to_target_size (okOracle sz) anim target alphaT minRes
        fs).1 = .ok p →
      p = GPath.output ∧ ∃ i, i < anim.frames.length ∧
        candSizeAt sz anim alphaT i ≤ target ∧
        (compress_to_target_size (okOracle sz) anim target alphaT minRes
          fs).2.2.length = i + 1) := by
  by_cases hx : ∃ i, i < anim.frames.length ∧
    candSizeAt sz anim alphaT i ≤ target
  · obtain ⟨hi0, hhit0⟩ := Nat.find_spec hx
    have key := compress_hit_eq sz anim target alphaT minRes fs hres hfs
      (Nat.find hx) hi0 hhit0 (find_min_gt sz anim target alphaT hx)
    refine ⟨?_, ?_, ?_, ?_⟩
    · simp only [key, List.length_take]
      simp [sched]
    · intro hfail
      exact absurd hhit0 (by have := hfail _ hi0; omega)
    · intro i hi hhit hmin
      exact compress_hit_eq sz anim target alphaT minRes fs hres hfs i hi
        hhit hmin
    · intro p hp
      simp only [key] at hp
      simp only [Except.ok.injEq] at hp
      refine ⟨hp.symm, Nat.find hx, hi0, hhit0, ?_⟩
      simp only [key, List.length_take]
      simp [sched]
      omega
  · push_neg at hx
    have hfail : ∀ i, i < anim.frames.length →
        target < candSizeAt sz anim alphaT i := hx
    have key := compress_all_fail_eq sz anim target alphaT minRes fs hres hfs
      hfail
    refine ⟨?_, fun _ => by simp only [key], ?_, ?_⟩
    · simp only [key]
      simp [sched]
    · intro i hi hhit hmin
      exact absurd hhit (by have := hfail i hi; omega)
    · intro p hp
      simp only [key] at hp
      exact absurd hp (by simp)

theorem compress_first_fit_witness :
    ((compress_to_target_size (okOracle (fun _ _ _ => 50)) animW 100 10 1000
      ⟨[]⟩).2.2.length ≤ animW.frames.length) ∧
    ((∀ i, i < animW.frames.length →
        100 < candSizeAt (fun _ _ _ => 50) animW 10 i) →
      (compress_to_target_size (okOracle (fun _ _ _ => 50)) animW 100 10 1000
        ⟨[]⟩).1 = .error .budgetUnreachable) ∧
    (∀ i, i < animW.frames.length →
      candSizeAt (fun _ _ _ => 50) animW 10 i ≤ 100 →
      (∀ j, j < i → 100 < candSizeAt (fun _ _ _ => 50) animW 10 j) →
      compress_to_target_size (okOracle (fun _ _ _ => 50)) animW 100 10 1000
        ⟨[]⟩ = (.ok GPath.output, FS.create ⟨[]⟩ GPath.output,
          (sched animW.frames.length).take (i + 1))) ∧
    (∀ p, (compress_to_target_size (okOracle (fun _ _ _ => 50)) animW 100 10
        1000 ⟨[]⟩).1 = .ok p →
      p = GPath.output ∧ ∃ i, i < animW.frames.length ∧
        candSizeAt (fun _ _ _ => 50) animW 10 i ≤ 100 ∧
        (compress_to_target_size (okOracle (fun _ _ _ => 50)) animW 100 10
          1000 ⟨[]⟩).2.2.length = i + 1) :=
  compress_first_fit (fun _ _ _ => 50) animW 100 10 1000 ⟨[]⟩ (by decide)
    (fun s c => List.not_mem_nil _)

/-- C9 (amended): each per-candidate temporary artifact is removed by its own
iteration on the two exit paths the loop itself takes — deleted on rejection,
moved to the final output path on promotion — so whenever the external encode
call never raises, after the search's terminal outcome (success or
`CompressionBudgetUnreachable`) no temporary artifacts remain on storage
besides the promoted output.  (The original claim's guarantee for iterations
that exit via an error does not hold: the source has no cleanup handler on
that path — see the counterexample.) -/
theorem compress_no_temp_residue (sz : Animation → Nat → Nat → Nat)
    (anim : Animation) (target alphaT minRes : Nat) (fs : FS)
    (hfs : ∀ s c, GPath.temp s c ∉ fs.files) :
    ∀ s c, GPath.temp s c ∉
      (compress_to_target_size (okOracle sz) anim target alphaT minRes
        fs).2.1.files := by
  intro s c
  by_cases hres : anim.size.1 < minRes ∨ anim.size.2 < minRes
  · rw [compress_to_target_size, if_pos hres]
    exact hfs s c
  · by_cases hx : ∃ i, i < anim.frames.length ∧
      candSizeAt sz anim alphaT i ≤ target
    · obtain ⟨hi0, hhit0⟩ := Nat.find_spec hx
      have key := compress_hit_eq sz anim target alphaT minRes fs hres hfs
        (Nat.find hx) hi0 hhit0 (find_min_gt sz anim target alphaT hx)
      simp only [key]
      intro hmem
      rcases FS.mem_create fs _ _ hmem with h | h
      · exact absurd h (by simp)
      · exact hfs s c h
    · push_neg at hx
      have key := compress_all_fail_eq sz anim target alphaT minRes fs hres
        hfs hx
      simp only [key]
      exact hfs s c

theorem compress_no_temp_residue_witness :
    GPath.temp 1 256 ∉
      (compress_to_target_size (okOracle (fun _ _ _ => 0)) animW 100 10 1000
        ⟨[]⟩).2.1.files :=
  compress_no_temp_residue (fun _ _ _ => 0) animW 100 10 1000 ⟨[]⟩
    (fun s c => List.not_mem_nil _) 1 256

/-- C9 counterexample: an iteration that exits via an error does leave its
temporary artifact behind.  With an encoder that raises after having written
the temporary file, the search aborts with `EncodingFailure` and the
iteration's temporary artifact (the path `temp 1 256`) remains on storage —
refuting the claim that after any terminal outcome no temporary artifacts
remain except the promoted output. -/
theorem compress_temp_residue_counterexample :
    compress_to_target_size alwaysErrAfter animOne 0 10 1000 ⟨[]⟩ =
      (.error .encodingFailure, ⟨[GPath.temp 1 256]⟩, [(1, 256)]) ∧
    GPath.temp 1 256 ∈
      (compress_to_target_size alwaysErrAfter animOne 0 10 1000
        ⟨[]⟩).2.1.files := by
  have key : compress_to_target_size alwaysErrAfter animOne 0 10 1000 ⟨[]⟩ =
      (.error .encodingFailure, ⟨[GPath.temp 1 256]⟩, [(1, 256)]) := by
    rw [compress_to_target_size, if_neg (by decide)]
    rw [compressLoop_step alwaysErrAfter animOne 0 10 1 256 ⟨[]⟩ []
      (by decide) (by decide) ⟨(1000, 1000), [pxOpaque]⟩ [] rfl]
    simp [alwaysErrAfter, FS.create]
  exact ⟨key, by simp only [key]; simp⟩

/-- C10: the resize operation changes only pixel dimensions — the output
animation has the same frame count, the identical duration sequence and loop
count, and every frame as well as the canvas is at the target size (the latter
under the `Image.resize` interface contract that a resized frame has the
requested size). -/
theorem resize_animation_only_dimensions (rz : Frame → Nat × Nat → Frame)
    (hrz : ∀ f s, (rz f s).size = s) (anim : Animation) (target : Nat × Nat) :
    (resize_animation rz anim target).frames.length = anim.frames.length ∧
    (resize_animation rz anim target).durations = anim.durations ∧
    (resize_animation rz anim target).loop = anim.loop ∧
    (resize_animation rz anim target).size = target ∧
    ∀ f ∈ (resize_animation rz anim target).frames, f.size = target := by
  refine ⟨by simp [resize_animation], rfl, rfl, rfl, ?_⟩
  intro f hf
  simp only [resize_animation, List.mem_map] at hf
  obtain ⟨g, -, rfl⟩ := hf
  exact hrz g target

theorem resize_animation_only_dimensions_witness :
    (resize_animation stampSize animW (500, 500)).frames.length =
      animW.frames.length ∧
    (resize_animation stampSize animW (500, 500)).durations = animW.durations ∧
    (resize_animation stampSize animW (500, 500)).loop = animW.loop ∧
    (resize_animation stampSize animW (500, 500)).size = (500, 500) ∧
    ∀ f ∈ (resize_animation stampSize animW (500, 500)).frames,
      f.size = (500, 500) :=
  resize_animation_only_dimensions stampSize (fun _ _ => rfl) animW (500, 500)
